import Mathlib

/-!
Shallow embedding of the huskyCI core under verification:
`src/api/container/container.go` (command template resolver, container
lifecycle controller `Run`, image availability worker `PullImageWorker`)
and `src/analysis/retirejs.go` (the RetireJS result evaluator
`RetirejsStartAnalysis`).

External effects (docker API round trips, the database update, the clock,
JSON deserialization) are modelled as explicit parameters: each fallible
round trip is an `Option Err` / `Except Err _` outcome supplied through an
environment record, and the evaluator takes the JSON parser as a function
argument. Go strings are modelled as Lean `String`; Go `strings.Replace`
and `strings.Contains` are re-implemented below by structural recursion so
that every definition evaluates inside the kernel.
-/

namespace HuskyCI

/-- Error values returned by the runtime round trips; only their identity
matters to the control flow, so they are modelled as strings. -/
abbrev Err := String

/-- Whether `pat` is a prefix of `s` (character-exact, case-sensitive),
mirroring the byte-exact matching of the Go standard library. -/
def isPrefixList : List Char → List Char → Bool
  | [], _ => true
  | _ :: _, [] => false
  | a :: as, b :: bs => a == b && isPrefixList as bs

/-- Whether `pat` occurs as a contiguous substring of the second list:
Go `strings.Contains` (case-sensitive, byte-exact). -/
def listContains (pat : List Char) : List Char → Bool
  | [] => isPrefixList pat []
  | c :: rest => isPrefixList pat (c :: rest) || listContains pat rest

/-- One pass of Go `strings.Replace(s, pat, new, -1)` for a nonempty
pattern: scan left to right, replace each leftmost non-overlapping
occurrence of `pat` by `new`. The `fuel` argument only bounds the
recursion (it is instantiated with the length of the scanned list, which
suffices because each step consumes at least one character); an empty
pattern is left untouched, which is adequate because every call site in
the repository passes a nonempty literal pattern. -/
def replaceAllFuel (pat new : List Char) : ℕ → List Char → List Char
  | 0, s => s
  | _ + 1, [] => []
  | fuel + 1, c :: rest =>
    if isPrefixList pat (c :: rest) && !pat.isEmpty then
      new ++ replaceAllFuel pat new fuel (List.drop pat.length (c :: rest))
    else
      c :: replaceAllFuel pat new fuel rest

/-- Go `strings.Replace(s, pat, new, -1)` on `String`. -/
def stringsReplace (s pat new : String) : String :=
  String.mk (replaceAllFuel pat.data new.data s.data.length s.data)

/-- Go `strings.Contains(s, substr)` on `String`. -/
def stringsContains (s substr : String) : Bool :=
  listContains substr.data s.data

/-- Embedding of `HandleCmd` (container.go): if repository URL, branch and
command template are all nonempty, substitute every occurrence of
`%GIT_REPO%` by the repository URL and then every occurrence of
`%GIT_BRANCH%` by the branch; otherwise return the empty string. -/
def HandleCmd (repositoryURL repositoryBranch cmd : String) : String :=
  if repositoryURL ≠ "" ∧ repositoryBranch ≠ "" ∧ cmd ≠ "" then
    stringsReplace (stringsReplace cmd "%GIT_REPO%" repositoryURL)
      "%GIT_BRANCH%" repositoryBranch
  else ""

/-- Embedding of `HandlePrivateSSHKey` (container.go). The Go function
reads the secret from the environment variable
`HUSKYCI_API_GIT_PRIVATE_SSH_KEY`; that process-scoped value is the
explicit `privKey` parameter here. Note the replaced pattern in the source
is the bare `GIT_PRIVATE_SSH_KEY`, without percent delimiters. -/
def HandlePrivateSSHKey (privKey rawString : String) : String :=
  stringsReplace rawString "GIT_PRIVATE_SSH_KEY" privKey

/-- Embedding of the struct `RetirejsIdentifier` (retirejs.go). -/
structure RetirejsIdentifier where
  IssueFound : String
  Summary : String
  CVE : List String
deriving DecidableEq

/-- Embedding of the struct `RetirejsVulnerability` (retirejs.go). -/
structure RetirejsVulnerability where
  Info : List String
  Below : String
  Severity : String
  RetirejsIdentifiers : RetirejsIdentifier
deriving DecidableEq

/-- Embedding of the struct `RetirejsResult` (retirejs.go). -/
structure RetirejsResult where
  Version : String
  Component : String
  Detection : String
  RetirejsVulnerabilities : List RetirejsVulnerability
deriving DecidableEq

/-- Embedding of the struct `RetirejsIssue` (retirejs.go). -/
structure RetirejsIssue where
  File : String
  RetirejsResults : List RetirejsResult
deriving DecidableEq

/-- Embedding of the struct `RetirejsOutput` (retirejs.go). The
`Messages` and `Errors` fields are opaque raw JSON blobs never inspected
by the evaluator; they are kept as strings. -/
structure RetirejsOutput where
  RetirejsIssues : List RetirejsIssue
  Messages : String
  Errors : String
deriving DecidableEq

/-- The innermost loop of step 2 of `RetirejsStartAnalysis`: walk the
vulnerabilities of one result; on the first severity equal to `"high"` or
`"medium"` set `cResult` to `"failed"` and break out of this loop. -/
def scanVulnList (cResult : String) : List RetirejsVulnerability → String
  | [] => cResult
  | v :: rest =>
    if v.Severity = "high" ∨ v.Severity = "medium" then "failed"
    else scanVulnList cResult rest

/-- The middle loop of step 2 of `RetirejsStartAnalysis`: fold
`scanVulnList` over the results of one issue. -/
def scanResults (cResult : String) : List RetirejsResult → String
  | [] => cResult
  | r :: rest => scanResults (scanVulnList cResult r.RetirejsVulnerabilities) rest

/-- The outer loop of step 2 of `RetirejsStartAnalysis`, starting from an
arbitrary accumulator. -/
def scanIssuesFrom (cResult : String) : List RetirejsIssue → String
  | [] => cResult
  | i :: rest => scanIssuesFrom (scanResults cResult i.RetirejsResults) rest

/-- Step 2 of `RetirejsStartAnalysis`: `cResult` starts as `"passed"` and
becomes `"failed"` exactly when a vulnerability of severity `"high"` or
`"medium"` is met. -/
def scanIssues (issues : List RetirejsIssue) : String :=
  scanIssuesFrom "passed" issues

/-- The single database update `RetirejsStartAnalysis` issues on the run
record: the optional `containers.$.cOutput` field and the optional
`containers.$.cResult` (verdict) field of the `$set` document. -/
structure ContainerUpdate where
  cOutput : Option String
  cResult : Option String
deriving DecidableEq

/-- Observable outcome of one `RetirejsStartAnalysis` call: either exactly
one persistence call with the given field-set document, or the
parse-failure path that only logs and persists nothing. -/
inductive AnalysisStep where
  | persisted (u : ContainerUpdate)
  | parseErrorLogged
deriving DecidableEq

/-- Embedding of `RetirejsStartAnalysis` (retirejs.go). The JSON
deserialization `json.Unmarshal` is the explicit `parse` argument
(`none` models an unmarshalling error); the container identifier only
addresses the database record and plays no role in the computed update,
so it is omitted. Control flow follows the source: the `ERROR_CLONING`
marker check on the raw output comes first and short-circuits before any
parse; a parse failure only logs; an empty issue list persists only the
text `"No issues found."`; otherwise the severity scan verdict is
persisted. -/
def RetirejsStartAnalysis (parse : String → Option RetirejsOutput)
    (cOutput : String) : AnalysisStep :=
  if stringsContains cOutput "ERROR_CLONING" then
    .persisted { cOutput := some ("Container error: " ++ cOutput), cResult := some "failed" }
  else
    match parse cOutput with
    | none => .parseErrorLogged
    | some retirejsOutput =>
      if retirejsOutput.RetirejsIssues = [] then
        .persisted { cOutput := some "No issues found.", cResult := none }
      else
        .persisted { cOutput := none, cResult := some (scanIssues retirejsOutput.RetirejsIssues) }

/-- The container configuration `Create` (container.go) passes to
`ContainerCreate`: full image name, `Tty` flag, and the three-element
shell command vector built from the resolved command. -/
structure ContainerConfig where
  image : String
  tty : Bool
  cmd : List String
deriving DecidableEq

/-- Embedding of the configuration built inside `Create` (container.go):
the command template is resolved by `HandleCmd` and then
`HandlePrivateSSHKey`, and the result is wrapped in `/bin/sh -c`.
`Create` performs no emptiness check on the resolved command; it always
issues exactly one `ContainerCreate` call with this configuration. -/
def CreateConfig (imageName imageTag command repositoryURL branch privKey : String) :
    ContainerConfig :=
  { image := imageName ++ ":" ++ imageTag
    tty := true
    cmd := ["/bin/sh", "-c", HandlePrivateSSHKey privKey (HandleCmd repositoryURL branch command)] }

/-- Outcomes of the external round trips performed by one `Run`
invocation (container.go): client construction, the image presence check,
the pull worker, container create, start, wait, the combined output read,
and container removal. `none` and `Except.ok` model success. -/
structure RunEnv where
  newClientErr : Option Err
  imageIsLoadedRes : Except Err Bool
  pullWorkerErr : Option Err
  createErr : Option Err
  startErr : Option Err
  waitErr : Option Err
  readOutputRes : Except Err String
  removeErr : Option Err

/-- Observable trace of one `Run` invocation: the final `Status` field of
the container struct (Go zero value is the empty string), whether the two
timestamps were recorded, the captured output, which docker calls were
issued (with the shell command passed at creation), and the returned
error. -/
structure RunTrace where
  status : String
  startedAtSet : Bool
  finishedAtSet : Bool
  output : Option String
  createCalled : Bool
  createCmd : String
  startCalled : Bool
  waitCalled : Bool
  readCalled : Bool
  removeCalled : Bool
  ret : Option Err
deriving DecidableEq

/-- The initial trace: no calls issued, no fields set. -/
def initTrace : RunTrace :=
  { status := "", startedAtSet := false, finishedAtSet := false, output := none,
    createCalled := false, createCmd := "", startCalled := false, waitCalled := false,
    readCalled := false, removeCalled := false, ret := none }

/-- Embedding of `Run` (container.go), step by step from the source:
client construction, presence check, pull worker when absent, create
(status `created`), record `startedAt` then start (on failure status
`finished` and return), wait (on failure status `finished` and return),
record `finishedAt` then read output (on failure return with status
unchanged), status `finished`, then remove, whose failure is logged and
ignored. The shell command created is the `HandleCmd` and
`HandlePrivateSSHKey` resolution, `privKey` standing for the
`HUSKYCI_API_GIT_PRIVATE_SSH_KEY` environment value. -/
def Run (env : RunEnv) (repositoryURL branch command privKey : String) : RunTrace :=
  match env.newClientErr with
  | some e => { initTrace with ret := some e }
  | none =>
  match env.imageIsLoadedRes with
  | .error e => { initTrace with ret := some e }
  | .ok imageIsLoaded =>
  match (if imageIsLoaded then none else env.pullWorkerErr) with
  | some e => { initTrace with ret := some e }
  | none =>
  let t1 := { initTrace with
    createCalled := true
    createCmd := HandlePrivateSSHKey privKey (HandleCmd repositoryURL branch command) }
  match env.createErr with
  | some e => { t1 with ret := some e }
  | none =>
  let t2 := { t1 with status := "created" }
  let t3 := { t2 with startedAtSet := true, startCalled := true }
  match env.startErr with
  | some e => { t3 with status := "finished", ret := some e }
  | none =>
  let t4 := { t3 with status := "running" }
  let t5 := { t4 with waitCalled := true }
  match env.waitErr with
  | some e => { t5 with status := "finished", ret := some e }
  | none =>
  let t6 := { t5 with finishedAtSet := true, readCalled := true }
  match env.readOutputRes with
  | .error e => { t6 with ret := some e }
  | .ok out =>
  let t7 := { t6 with output := some out, status := "finished" }
  { t7 with removeCalled := true, ret := none }

/-- Outcome of one `PullImageWorker` invocation (container.go): the
timeout error, success on a presence hit, or a hard error from the
presence check or the pull call. -/
inductive WorkerOutcome where
  | timeout
  | success
  | hardError (e : Err)
deriving DecidableEq

/-- Discrete-time model of the `PullImageWorker` select loop
(container.go). The ticker delivers tick `n` at time `15 * (n + 1)`
seconds and the timeout channel fires at `900` seconds, so at most
`remaining` tick events can be served before the timeout case is taken;
on each served tick the worker checks presence (`isLoaded n`), returns on
a hard error or a hit, otherwise issues one pull (`pullErr n`) and keeps
looping. The returned list collects the times of the served presence
checks. -/
def workerAux (isLoaded : ℕ → Except Err Bool) (pullErr : ℕ → Option Err) :
    ℕ → ℕ → WorkerOutcome × List ℕ
  | _, 0 => (.timeout, [])
  | n, remaining + 1 =>
    match isLoaded n with
    | .error e => (.hardError e, [15 * (n + 1)])
    | .ok true => (.success, [15 * (n + 1)])
    | .ok false =>
      match pullErr n with
      | some e => (.hardError e, [15 * (n + 1)])
      | none =>
        let r := workerAux isLoaded pullErr (n + 1) remaining
        (r.1, 15 * (n + 1) :: r.2)

/-- Embedding of `PullImageWorker` (container.go). Exactly 59 ticks fall
strictly before the 900-second deadline; the 60th tick coincides with it
and the Go `select` then chooses either ready case, which `tieBreakTick`
records (`true`: the tick at 900 s is still served before the timeout is
taken on the following iteration). -/
def PullImageWorker (tieBreakTick : Bool) (isLoaded : ℕ → Except Err Bool)
    (pullErr : ℕ → Option Err) : WorkerOutcome × List ℕ :=
  workerAux isLoaded pullErr 0 (if tieBreakTick then 60 else 59)

/-- Environment in which every round trip of `Run` succeeds. -/
def envAllOk : RunEnv :=
  { newClientErr := none, imageIsLoadedRes := .ok true, pullWorkerErr := none,
    createErr := none, startErr := none, waitErr := none,
    readOutputRes := .ok "scan output", removeErr := none }

/-- Environment in which the container start round trip fails and
everything else succeeds. -/
def envStartFail : RunEnv :=
  { envAllOk with startErr := some "start error" }

/-- Environment in which the output read round trip fails and everything
else succeeds. -/
def envReadFail : RunEnv :=
  { envAllOk with readOutputRes := .error "read error" }

/-- A parsed RetireJS output with a single vulnerability of severity
`"high"`. -/
def outHigh : RetirejsOutput :=
  { RetirejsIssues :=
      [{ File := "a.js"
         RetirejsResults :=
           [{ Version := "1.0", Component := "lib", Detection := "x"
              RetirejsVulnerabilities :=
                [{ Info := ["i"], Below := "1.1", Severity := "high"
                   RetirejsIdentifiers := { IssueFound := "I1", Summary := "S", CVE := ["CVE-1"] } }] }] }]
    Messages := "", Errors := "" }

/-- A parsed RetireJS output with an empty issue list. -/
def outEmpty : RetirejsOutput :=
  { RetirejsIssues := [], Messages := "", Errors := "" }

/-- A parsed RetireJS output whose severities are `"High"`, `"MEDIUM"`
and `"critical"`: none of them matches the evaluator comparison exactly. -/
def outOddSeverities : RetirejsOutput :=
  { RetirejsIssues :=
      [{ File := "b.js"
         RetirejsResults :=
           [{ Version := "2.0", Component := "libb", Detection := "y"
              RetirejsVulnerabilities :=
                [{ Info := [], Below := "2.1", Severity := "High"
                   RetirejsIdentifiers := { IssueFound := "I2", Summary := "S2", CVE := [] } },
                 { Info := [], Below := "2.2", Severity := "MEDIUM"
                   RetirejsIdentifiers := { IssueFound := "I3", Summary := "S3", CVE := [] } },
                 { Info := [], Below := "2.3", Severity := "critical"
                   RetirejsIdentifiers := { IssueFound := "I4", Summary := "S4", CVE := [] } }] }] }]
    Messages := "", Errors := "" }

/-! ## Helper lemmas -/

/-- Every list is a prefix of itself. -/
theorem isPrefixList_refl (s : List Char) : isPrefixList s s = true := by
  induction s with
  | nil => rfl
  | cons c rest ih => simp [isPrefixList, ih]

/-- A list occurs as a substring of itself preceded by anything. -/
theorem listContains_append_self (p s : List Char) : listContains s (p ++ s) = true := by
  induction p with
  | nil =>
    cases s with
    | nil => rfl
    | cons c rest => simp [listContains, isPrefixList_refl]
  | cons a p ih => simp [listContains, ih]

/-- Scanning a list that does not contain the pattern changes nothing. -/
theorem replaceAllFuel_of_not_contains (pat new : List Char) (fuel : ℕ) :
    ∀ s : List Char, listContains pat s = false → replaceAllFuel pat new fuel s = s := by
  induction fuel with
  | zero => intro s _; rfl
  | succ fuel ih =>
    intro s h
    cases s with
    | nil => rfl
    | cons c rest =>
      rw [listContains, Bool.or_eq_false_iff] at h
      rw [replaceAllFuel, if_neg, ih rest h.2]
      simp [h.1]

/-- String-level version: Go `strings.Replace` leaves a string without any
occurrence of the pattern unchanged. -/
theorem stringsReplace_of_not_contains (s pat new : String)
    (h : stringsContains s pat = false) : stringsReplace s pat new = s := by
  unfold stringsReplace
  rw [replaceAllFuel_of_not_contains pat.data new.data s.data.length s.data h]

/-- The inner severity loop returns `"failed"` exactly when the
accumulator already was `"failed"` or some vulnerability in the list has
severity `"medium"` or `"high"`. -/
theorem scanVulnList_eq_failed_iff (acc : String) (l : List RetirejsVulnerability) :
    scanVulnList acc l = "failed" ↔
      acc = "failed" ∨ ∃ v ∈ l, (v.Severity = "medium" ∨ v.Severity = "high") := by
  induction l with
  | nil => simp [scanVulnList]
  | cons v rest ih =>
    by_cases h : v.Severity = "high" ∨ v.Severity = "medium"
    · simp only [scanVulnList, if_pos h, List.mem_cons]
      constructor
      · intro _; exact Or.inr ⟨v, Or.inl rfl, h.symm⟩
      · intro _; trivial
    · simp only [scanVulnList, if_neg h, ih, List.mem_cons]
      constructor
      · rintro (ha | ⟨w, hw, hsw⟩)
        · exact Or.inl ha
        · exact Or.inr ⟨w, Or.inr hw, hsw⟩
      · rintro (ha | ⟨w, hw | hw, hsw⟩)
        · exact Or.inl ha
        · exact absurd (hw ▸ hsw).symm h
        · exact Or.inr ⟨w, hw, hsw⟩

/-- The inner severity loop either keeps the accumulator or returns
`"failed"`. -/
theorem scanVulnList_values (acc : String) (l : List RetirejsVulnerability) :
    scanVulnList acc l = acc ∨ scanVulnList acc l = "failed" := by
  induction l with
  | nil => exact Or.inl rfl
  | cons v rest ih =>
    by_cases h : v.Severity = "high" ∨ v.Severity = "medium"
    · exact Or.inr (by simp [scanVulnList, if_pos h])
    · simpa [scanVulnList, if_neg h] using ih

/-- The middle loop returns `"failed"` exactly when the accumulator
already was `"failed"` or some vulnerability of some result has severity
`"medium"` or `"high"`. -/
theorem scanResults_eq_failed_iff (l : List RetirejsResult) :
    ∀ acc : String, scanResults acc l = "failed" ↔
      acc = "failed" ∨ ∃ r ∈ l, ∃ v ∈ r.RetirejsVulnerabilities,
        (v.Severity = "medium" ∨ v.Severity = "high") := by
  induction l with
  | nil => intro acc; simp [scanResults]
  | cons r rest ih =>
    intro acc
    rw [scanResults, ih, scanVulnList_eq_failed_iff]
    simp only [List.mem_cons]
    constructor
    · rintro ((ha | ⟨v, hv, hsv⟩) | ⟨w, hw, hin⟩)
      · exact Or.inl ha
      · exact Or.inr ⟨r, Or.inl rfl, v, hv, hsv⟩
      · exact Or.inr ⟨w, Or.inr hw, hin⟩
    · rintro (ha | ⟨w, hw | hw, hin⟩)
      · exact Or.inl (Or.inl ha)
      · exact Or.inl (Or.inr (hw ▸ hin))
      · exact Or.inr ⟨w, hw, hin⟩

/-- The middle loop either keeps the accumulator or returns `"failed"`. -/
theorem scanResults_values (l : List RetirejsResult) :
    ∀ acc : String, scanResults acc l = acc ∨ scanResults acc l = "failed" := by
  induction l with
  | nil => intro acc; exact Or.inl rfl
  | cons r rest ih =>
    intro acc
    rw [scanResults]
    rcases ih (scanVulnList acc r.RetirejsVulnerabilities) with h | h
    · rw [h]; exact scanVulnList_values acc r.RetirejsVulnerabilities
    · exact Or.inr h

/-- The outer loop returns `"failed"` exactly when the accumulator
already was `"failed"` or some vulnerability across the issues has
severity `"medium"` or `"high"`. -/
theorem scanIssuesFrom_eq_failed_iff (l : List RetirejsIssue) :
    ∀ acc : String, scanIssuesFrom acc l = "failed" ↔
      acc = "failed" ∨ ∃ i ∈ l, ∃ r ∈ i.RetirejsResults, ∃ v ∈ r.RetirejsVulnerabilities,
        (v.Severity = "medium" ∨ v.Severity = "high") := by
  induction l with
  | nil => intro acc; simp [scanIssuesFrom]
  | cons i rest ih =>
    intro acc
    rw [scanIssuesFrom, ih, scanResults_eq_failed_iff]
    simp only [List.mem_cons]
    constructor
    · rintro ((ha | ⟨r, hr, hin⟩) | ⟨w, hw, hin⟩)
      · exact Or.inl ha
      · exact Or.inr ⟨i, Or.inl rfl, r, hr, hin⟩
      · exact Or.inr ⟨w, Or.inr hw, hin⟩
    · rintro (ha | ⟨w, hw | hw, hin⟩)
      · exact Or.inl (Or.inl ha)
      · exact Or.inl (Or.inr (hw ▸ hin))
      · exact Or.inr ⟨w, hw, hin⟩

/-- The outer loop either keeps the accumulator or returns `"failed"`. -/
theorem scanIssuesFrom_values (l : List RetirejsIssue) :
    ∀ acc : String, scanIssuesFrom acc l = acc ∨ scanIssuesFrom acc l = "failed" := by
  induction l with
  | nil => intro acc; exact Or.inl rfl
  | cons i rest ih =>
    intro acc
    rw [scanIssuesFrom]
    rcases ih (scanResults acc i.RetirejsResults) with h | h
    · rw [h]; exact scanResults_values i.RetirejsResults acc
    · exact Or.inr h

/-- The severity scan yields `"failed"` exactly when some vulnerability
has severity `"medium"` or `"high"`. -/
theorem scanIssues_eq_failed_iff (issues : List RetirejsIssue) :
    scanIssues issues = "failed" ↔
      ∃ i ∈ issues, ∃ r ∈ i.RetirejsResults, ∃ v ∈ r.RetirejsVulnerabilities,
        (v.Severity = "medium" ∨ v.Severity = "high") := by
  rw [scanIssues, scanIssuesFrom_eq_failed_iff]
  simp

/-- The severity scan yields `"passed"` or `"failed"`, nothing else. -/
theorem scanIssues_values (issues : List RetirejsIssue) :
    scanIssues issues = "passed" ∨ scanIssues issues = "failed" :=
  scanIssuesFrom_values issues "passed"

/-! ## Claim theorems -/

/-- Claim C1: for every parsed output with at least one issue that reaches
the severity scan, the persisted verdict is `"failed"` exactly when some
vulnerability has severity `"medium"` or `"high"`, and an all-`"low"`
(or vulnerability-free) output yields `"passed"`. -/
theorem retirejs_verdict_iff_medium_or_high (parse : String → Option RetirejsOutput)
    (raw : String) (out : RetirejsOutput)
    (hmarker : stringsContains raw "ERROR_CLONING" = false)
    (hparse : parse raw = some out)
    (hne : out.RetirejsIssues ≠ [])
    (hsev : ∀ i ∈ out.RetirejsIssues, ∀ r ∈ i.RetirejsResults,
      ∀ v ∈ r.RetirejsVulnerabilities,
        v.Severity = "low" ∨ v.Severity = "medium" ∨ v.Severity = "high") :
    RetirejsStartAnalysis parse raw =
      AnalysisStep.persisted { cOutput := none, cResult := some (scanIssues out.RetirejsIssues) } ∧
    (scanIssues out.RetirejsIssues = "failed" ↔
      ∃ i ∈ out.RetirejsIssues, ∃ r ∈ i.RetirejsResults, ∃ v ∈ r.RetirejsVulnerabilities,
        (v.Severity = "medium" ∨ v.Severity = "high")) ∧
    ((∀ i ∈ out.RetirejsIssues, ∀ r ∈ i.RetirejsResults, ∀ v ∈ r.RetirejsVulnerabilities,
        v.Severity = "low") → scanIssues out.RetirejsIssues = "passed") := by
  refine ⟨?_, scanIssues_eq_failed_iff out.RetirejsIssues, ?_⟩
  · simp [RetirejsStartAnalysis, hmarker, hparse, hne]
  · intro hlow
    rcases scanIssues_values out.RetirejsIssues with h | h
    · exact h
    · exfalso
      rcases (scanIssues_eq_failed_iff out.RetirejsIssues).mp h with ⟨i, hi, r, hr, v, hv, hsv⟩
      have hl := hlow i hi r hr v hv
      rcases hsv with hs | hs <;> rw [hl] at hs <;> simp at hs

/-- Witness for C1 at a concrete single-`"high"` output. -/
theorem retirejs_verdict_iff_medium_or_high_witness :
    RetirejsStartAnalysis (fun _ => some outHigh) "x" =
      AnalysisStep.persisted { cOutput := none, cResult := some (scanIssues outHigh.RetirejsIssues) } ∧
    (scanIssues outHigh.RetirejsIssues = "failed" ↔
      ∃ i ∈ outHigh.RetirejsIssues, ∃ r ∈ i.RetirejsResults, ∃ v ∈ r.RetirejsVulnerabilities,
        (v.Severity = "medium" ∨ v.Severity = "high")) ∧
    ((∀ i ∈ outHigh.RetirejsIssues, ∀ r ∈ i.RetirejsResults, ∀ v ∈ r.RetirejsVulnerabilities,
        v.Severity = "low") → scanIssues outHigh.RetirejsIssues = "passed") :=
  retirejs_verdict_iff_medium_or_high (fun _ => some outHigh) "x" outHigh (by decide) rfl
    (by decide) (by decide)

/-- Claim C3: raw output that contains the `ERROR_CLONING` marker is
persisted as status `"failed"` with an error message containing the raw
output, independently of the parser (which is therefore never consulted:
the result is the same for every `parse` argument). -/
theorem retirejs_clone_marker_short_circuit (parse : String → Option RetirejsOutput)
    (raw : String) (h : stringsContains raw "ERROR_CLONING" = true) :
    RetirejsStartAnalysis parse raw =
      AnalysisStep.persisted
        { cOutput := some ("Container error: " ++ raw), cResult := some "failed" } ∧
    stringsContains ("Container error: " ++ raw) raw = true := by
  constructor
  · simp [RetirejsStartAnalysis, h]
  · show listContains raw.data ("Container error: " ++ raw).data = true
    rw [String.data_append]
    exact listContains_append_self _ _

/-- Witness for C3 at a concrete marker-bearing output. -/
theorem retirejs_clone_marker_short_circuit_witness :
    RetirejsStartAnalysis (fun _ => none) "ERROR_CLONING happened" =
      AnalysisStep.persisted
        { cOutput := some ("Container error: " ++ "ERROR_CLONING happened"),
          cResult := some "failed" } ∧
    stringsContains ("Container error: " ++ "ERROR_CLONING happened") "ERROR_CLONING happened" = true :=
  retirejs_clone_marker_short_circuit (fun _ => none) "ERROR_CLONING happened" (by decide)

/-- Claim C4: a parsed output with an empty issue list persists exactly
the output text `"No issues found."` and sets no verdict field. -/
theorem retirejs_empty_issues_no_verdict (parse : String → Option RetirejsOutput)
    (raw : String) (out : RetirejsOutput)
    (hmarker : stringsContains raw "ERROR_CLONING" = false)
    (hparse : parse raw = some out)
    (hempty : out.RetirejsIssues = []) :
    RetirejsStartAnalysis parse raw =
      AnalysisStep.persisted { cOutput := some "No issues found.", cResult := none } := by
  simp [RetirejsStartAnalysis, hmarker, hparse, hempty]

/-- Witness for C4 at a concrete empty output. -/
theorem retirejs_empty_issues_no_verdict_witness :
    RetirejsStartAnalysis (fun _ => some outEmpty) "x" =
      AnalysisStep.persisted { cOutput := some "No issues found.", cResult := none } :=
  retirejs_empty_issues_no_verdict (fun _ => some outEmpty) "x" outEmpty (by decide) rfl rfl

/-- Claim C10: the severity comparison is an exact, case-sensitive match
against `"high"` and `"medium"`; severities differing only in case, or
outside the fixed set, never produce the verdict `"failed"`. -/
theorem scanIssues_case_sensitive_match (issues : List RetirejsIssue)
    (h : ∀ i ∈ issues, ∀ r ∈ i.RetirejsResults, ∀ v ∈ r.RetirejsVulnerabilities,
      v.Severity ≠ "high" ∧ v.Severity ≠ "medium") :
    scanIssues issues = "passed" ∧ scanIssues issues ≠ "failed" := by
  have hnf : scanIssues issues ≠ "failed" := by
    intro hf
    rcases (scanIssues_eq_failed_iff issues).mp hf with ⟨i, hi, r, hr, v, hv, hsv⟩
    rcases hsv with hs | hs
    · exact (h i hi r hr v hv).2 hs
    · exact (h i hi r hr v hv).1 hs
  rcases scanIssues_values issues with hp | hf
  · exact ⟨hp, hnf⟩
  · exact absurd hf hnf

/-- Witness for C10 at severities `"High"`, `"MEDIUM"`, `"critical"`. -/
theorem scanIssues_case_sensitive_match_witness :
    scanIssues outOddSeverities.RetirejsIssues = "passed" ∧
    scanIssues outOddSeverities.RetirejsIssues ≠ "failed" :=
  scanIssues_case_sensitive_match outOddSeverities.RetirejsIssues (by decide)

/-- Claim C5: `HandleCmd` returns the empty string when any argument is
empty; with nonempty arguments it substitutes every `%GIT_REPO%` and
`%GIT_BRANCH%` occurrence, a token-free template is returned unchanged,
and the concrete scenario resolves as specified. -/
theorem HandleCmd_spec (r b c : String) :
    ((r = "" ∨ b = "" ∨ c = "") → HandleCmd r b c = "") ∧
    (r ≠ "" → b ≠ "" → c ≠ "" → stringsContains c "%GIT_REPO%" = false →
      stringsContains c "%GIT_BRANCH%" = false → HandleCmd r b c = c) ∧
    HandleCmd "git@x/y" "main" "scan.sh %GIT_REPO% %GIT_BRANCH%" = "scan.sh git@x/y main" ∧
    HandleCmd "u" "m" "%GIT_REPO% %GIT_REPO% %GIT_BRANCH%" = "u u m" := by
  refine ⟨?_, ?_, by decide, by decide⟩
  · intro h
    rw [HandleCmd, if_neg]
    rintro ⟨h1, h2, h3⟩
    rcases h with h | h | h
    · exact h1 h
    · exact h2 h
    · exact h3 h
  · intro hr hb hc h1 h2
    rw [HandleCmd, if_pos ⟨hr, hb, hc⟩, stringsReplace_of_not_contains c _ _ h1,
      stringsReplace_of_not_contains c _ _ h2]

/-- Witness for C5: an empty-argument case and a token-free template. -/
theorem HandleCmd_spec_witness :
    HandleCmd "" "main" "scan.sh" = "" ∧ HandleCmd "u" "m" "scan.sh" = "scan.sh" :=
  ⟨(HandleCmd_spec "" "main" "scan.sh").1 (Or.inl rfl),
   (HandleCmd_spec "u" "m" "scan.sh").2.1 (by decide) (by decide) (by decide)
     (by decide) (by decide)⟩

/-- Claim C6 evaluated at its failing input: the source replaces the bare
substring `GIT_PRIVATE_SSH_KEY`, so the delimited token
`%GIT_PRIVATE_SSH_KEY%` resolves to `%KEY%` and percent residue of the
token remains in the command, contradicting both the claim and the
function doc comment in the source. -/
theorem HandlePrivateSSHKey_leaves_percent_residue :
    HandlePrivateSSHKey "KEY" "ssh-add %GIT_PRIVATE_SSH_KEY%" = "ssh-add %KEY%" ∧
    HandlePrivateSSHKey "KEY" "ssh-add %GIT_PRIVATE_SSH_KEY%" ≠ "ssh-add KEY" ∧
    stringsContains (HandlePrivateSSHKey "KEY" "ssh-add %GIT_PRIVATE_SSH_KEY%") "%" = true := by
  decide

/-- Counterexample to C2 as stated: when the container start round trip
fails, `Run` returns the start error without ever attempting removal of
the created container. -/
theorem run_no_remove_on_start_failure :
    (Run envStartFail "repo" "branch" "cmd" "key").ret = some "start error" ∧
    (Run envStartFail "repo" "branch" "cmd" "key").createCalled = true ∧
    (Run envStartFail "repo" "branch" "cmd" "key").removeCalled = false := by
  decide

/-- Claim C2 amended: removal of the container is attempted exactly on
the exit path where every prior step (client, image, create, start, wait,
output read) succeeded; when removal is attempted, a removal failure does
not cause `Run` to return an error. -/
theorem run_remove_only_on_success_path (env : RunEnv) (r b c k : String) :
    ((Run env r b c k).removeCalled = true ↔
      (env.newClientErr = none ∧
       (env.imageIsLoadedRes = Except.ok true ∨
         (env.imageIsLoadedRes = Except.ok false ∧ env.pullWorkerErr = none)) ∧
       env.createErr = none ∧ env.startErr = none ∧ env.waitErr = none ∧
       ∃ out, env.readOutputRes = Except.ok out)) ∧
    ((Run env r b c k).removeCalled = true → (Run env r b c k).ret = none) := by
  rcases env with ⟨nc, il, pw, ce, se, we, ro, re⟩
  cases nc with
  | some e => simp [Run, initTrace]
  | none =>
    cases il with
    | error e => simp [Run, initTrace]
    | ok loaded =>
      cases loaded <;> cases pw <;> cases ce <;> cases se <;> cases we <;> cases ro <;>
        simp [Run, initTrace]

/-- Witness for C2 amended: on the all-success environment removal is
attempted and `Run` returns no error. -/
theorem run_remove_only_on_success_path_witness :
    (Run envAllOk "r" "b" "c" "k").removeCalled = true ∧
    (Run envAllOk "r" "b" "c" "k").ret = none :=
  ⟨((run_remove_only_on_success_path envAllOk "r" "b" "c" "k").1).mpr
      ⟨rfl, Or.inl rfl, rfl, rfl, rfl, "scan output", rfl⟩,
   (run_remove_only_on_success_path envAllOk "r" "b" "c" "k").2 (by decide)⟩

/-- Counterexample to C7 as stated: with an empty repository URL the
command resolver yields the empty string, yet `Create` inside `Run` still
issues the container-create call, whose shell command is empty. -/
theorem run_creates_container_with_empty_command :
    HandleCmd "" "main" "scan.sh %GIT_REPO%" = "" ∧
    (Run envAllOk "" "main" "scan.sh %GIT_REPO%" "key").createCalled = true ∧
    (Run envAllOk "" "main" "scan.sh %GIT_REPO%" "key").createCmd = "" ∧
    (CreateConfig "img" "tag" "scan.sh %GIT_REPO%" "" "main" "key").cmd =
      ["/bin/sh", "-c", ""] := by
  decide

/-- Claim C7 amended: `Create` performs no emptiness check: whenever the
create step is reached, the container-create call is issued with the
resolved command, and an empty resolution still yields a container whose
shell command is the empty string. -/
theorem run_create_unconditional (env : RunEnv) (r b c k : String)
    (h1 : env.newClientErr = none)
    (h2 : env.imageIsLoadedRes = Except.ok true ∨
      (env.imageIsLoadedRes = Except.ok false ∧ env.pullWorkerErr = none)) :
    (Run env r b c k).createCalled = true ∧
    (Run env r b c k).createCmd = HandlePrivateSSHKey k (HandleCmd r b c) ∧
    (HandleCmd r b c = "" → (Run env r b c k).createCmd = "") := by
  have main : (Run env r b c k).createCalled = true ∧
      (Run env r b c k).createCmd = HandlePrivateSSHKey k (HandleCmd r b c) := by
    rcases h2 with h2 | ⟨h2, h2p⟩
    · rcases hce : env.createErr with _ | e1 <;>
        rcases hse : env.startErr with _ | e2 <;>
          rcases hwe : env.waitErr with _ | e3 <;>
            rcases hro : env.readOutputRes with e4 | out <;>
              simp [Run, h1, h2, hce, hse, hwe, hro, initTrace]
    · rcases hce : env.createErr with _ | e1 <;>
        rcases hse : env.startErr with _ | e2 <;>
          rcases hwe : env.waitErr with _ | e3 <;>
            rcases hro : env.readOutputRes with e4 | out <;>
              simp [Run, h1, h2, h2p, hce, hse, hwe, hro, initTrace]
  refine ⟨main.1, main.2, fun h => ?_⟩
  rw [main.2, h]
  rfl

/-- Witness for C7 amended at the all-success environment with an empty
repository URL. -/
theorem run_create_unconditional_witness :
    (Run envAllOk "" "main" "scan.sh %GIT_REPO%" "key").createCalled = true ∧
    (Run envAllOk "" "main" "scan.sh %GIT_REPO%" "key").createCmd = "" :=
  ⟨(run_create_unconditional envAllOk "" "main" "scan.sh %GIT_REPO%" "key" rfl (Or.inl rfl)).1,
   (run_create_unconditional envAllOk "" "main" "scan.sh %GIT_REPO%" "key" rfl (Or.inl rfl)).2.2
     (by decide)⟩

/-- Counterexample to C8 as stated: when the output read fails after a
successful wait, `finishedAt` is recorded but the container status stays
`"running"` instead of being set to `"finished"`. -/
theorem run_status_running_on_read_failure :
    (Run envReadFail "repo" "branch" "cmd" "key").finishedAtSet = true ∧
    (Run envReadFail "repo" "branch" "cmd" "key").status = "running" ∧
    (Run envReadFail "repo" "branch" "cmd" "key").status ≠ "finished" ∧
    (Run envReadFail "repo" "branch" "cmd" "key").ret = some "read error" := by
  decide

/-- Claim C8 amended: once the wait step completes, `finishedAt` is
recorded regardless of the output read outcome, but the status is set to
`"finished"` exactly when the read succeeds; on a read failure `Run`
returns the read error with the status still `"running"`. -/
theorem run_finishedAt_and_status_after_wait (env : RunEnv) (r b c k : String)
    (h1 : env.newClientErr = none)
    (h2 : env.imageIsLoadedRes = Except.ok true ∨
      (env.imageIsLoadedRes = Except.ok false ∧ env.pullWorkerErr = none))
    (h3 : env.createErr = none) (h4 : env.startErr = none) (h5 : env.waitErr = none) :
    (Run env r b c k).finishedAtSet = true ∧
    ((Run env r b c k).status = "finished" ↔ ∃ out, env.readOutputRes = Except.ok out) ∧
    (∀ e, env.readOutputRes = Except.error e →
      (Run env r b c k).status = "running" ∧ (Run env r b c k).ret = some e) := by
  rcases h2 with h2 | ⟨h2, h2p⟩
  · rcases hro : env.readOutputRes with e | out <;>
      simp [Run, h1, h2, h3, h4, h5, hro, initTrace]
  · rcases hro : env.readOutputRes with e | out <;>
      simp [Run, h1, h2, h2p, h3, h4, h5, hro, initTrace]

/-- Witness for C8 amended at the environment whose output read fails. -/
theorem run_finishedAt_and_status_after_wait_witness :
    (Run envReadFail "r" "b" "c" "k").finishedAtSet = true ∧
    (Run envReadFail "r" "b" "c" "k").status = "running" :=
  ⟨(run_finishedAt_and_status_after_wait envReadFail "r" "b" "c" "k" rfl (Or.inl rfl)
      rfl rfl rfl).1,
   ((run_finishedAt_and_status_after_wait envReadFail "r" "b" "c" "k" rfl (Or.inl rfl)
      rfl rfl rfl).2.2 "read error" rfl).1⟩

/-- Counterexample to C9 as stated: against a permanently absent image
with always-successful pulls the worker does time out, but it makes no
poll attempt strictly before the first 15-second retry interval elapses
(its first presence check is served exactly at 15 seconds), whichever way
the select tie at the deadline is broken. -/
theorem pullImageWorker_no_poll_before_first_interval :
    (PullImageWorker false (fun _ => Except.ok false) (fun _ => none)).1 = WorkerOutcome.timeout ∧
    (PullImageWorker false (fun _ => Except.ok false) (fun _ => none)).2 ≠ [] ∧
    (PullImageWorker false (fun _ => Except.ok false) (fun _ => none)).2.any
      (fun t => decide (t < 15)) = false ∧
    (PullImageWorker true (fun _ => Except.ok false) (fun _ => none)).1 = WorkerOutcome.timeout ∧
    (PullImageWorker true (fun _ => Except.ok false) (fun _ => none)).2 ≠ [] ∧
    (PullImageWorker true (fun _ => Except.ok false) (fun _ => none)).2.any
      (fun t => decide (t < 15)) = false := by
  decide

/-- Claim C9 amended: against a permanently absent image with
always-successful pulls the worker fails with the timeout after the
15-minute deadline, and it serves its polls exactly at the 15-second
ticks: the first poll happens when the first retry interval elapses
(at 15 seconds, not before), the later ones every 15 seconds up to the
deadline (59 ticks fall strictly before it; the tick coinciding with the
deadline is served only if the select tie is broken in its favour). -/
theorem pullImageWorker_timeout_and_poll_times :
    (PullImageWorker false (fun _ => Except.ok false) (fun _ => none)).1 = WorkerOutcome.timeout ∧
    (PullImageWorker false (fun _ => Except.ok false) (fun _ => none)).2 =
      (List.range 59).map (fun n => 15 * (n + 1)) ∧
    (PullImageWorker true (fun _ => Except.ok false) (fun _ => none)).1 = WorkerOutcome.timeout ∧
    (PullImageWorker true (fun _ => Except.ok false) (fun _ => none)).2 =
      (List.range 60).map (fun n => 15 * (n + 1)) ∧
    (PullImageWorker false (fun _ => Except.ok false) (fun _ => none)).2.head? = some 15 ∧
    (PullImageWorker true (fun _ => Except.ok false) (fun _ => none)).2.head? = some 15 := by
  decide

end HuskyCI
